import Mathlib

/-!
# Verification of the wallet-balance / airdrop service

Shallow embedding of the two source files of the repository
(`be/index.js` and the natural-language balance handler imported by it,
shown together with `fe/src/components/WalletChat.jsx`).

Conventions of the embedding:
* JS `async` network calls are modelled by oracles of type `Except String _`
  supplied in an environment record; a thrown JS `Error` is `Except.error msg`
  where `msg` is the `error.message` string.
* Every remote call and every `setTimeout` sleep performed by a handler is
  recorded in an event log (`Ev`), so that temporal claims ("no RPC call is
  issued", "the Settle step never runs") become statements about the log.
* JS numbers holding lamport balances are `Nat` (the RPC returns non-negative
  integers); SOL amounts obtained by division through `LAMPORTS_PER_SOL` are
  modelled exactly in `ℚ`; a JS `undefined` flowing out of the retry loop is
  `Option.none` and propagates through arithmetic like NaN.
* `new PublicKey(s)` of `@solana/web3.js` is modelled by its documented
  contract: base-58 decode `s` (throwing on a character outside the alphabet)
  and throw `Invalid public key input` unless the decoded byte string has
  length exactly 32.  Only the success/failure of the construction and the
  round-tripped string matter to the handlers, so the model computes the
  decoded byte *length* (count of leading `1` characters, which decode to zero
  bytes, plus the minimal big-endian byte length of the remaining base-58
  value) and `toString` is the identity on accepted inputs.
-/

namespace SolanaLlm

/-- A character of the base-58 class `[1-9A-HJ-NP-Za-km-z]` mapped to its digit
value 0–57; characters outside the class (in particular `0`, `O`, `I`, `l`)
map to `none`.  Code points: `1`–`9` are 49–57, `A`–`H` 65–72, `J`–`N` 74–78,
`P`–`Z` 80–90, `a`–`k` 97–107, `m`–`z` 109–122. -/
def b58Digit (c : Char) : Option Nat :=
  let n := c.toNat
  if 49 ≤ n ∧ n ≤ 57 then some (n - 49)
  else if 65 ≤ n ∧ n ≤ 72 then some (n - 56)
  else if 74 ≤ n ∧ n ≤ 78 then some (n - 57)
  else if 80 ≤ n ∧ n ≤ 90 then some (n - 58)
  else if 97 ≤ n ∧ n ≤ 107 then some (n - 64)
  else if 109 ≤ n ∧ n ≤ 122 then some (n - 65)
  else none

/-- Number of leading `1` characters of a base-58 string; each decodes to one
leading zero byte. -/
def leadingOnes : List Char → Nat
  | [] => 0
  | c :: cs => if c = '1' then leadingOnes cs + 1 else 0

/-- Base-58 value of a character list (Horner form), `none` if some character
is outside the alphabet. -/
def b58ValueAux (acc : Nat) : List Char → Option Nat
  | [] => some acc
  | c :: cs =>
    match b58Digit c with
    | none => none
    | some d => b58ValueAux (acc * 58 + d) cs

/-- Length of the minimal big-endian base-256 representation of `n`, with
explicit structural fuel (any `fuel ≥ n` gives the true value). -/
def byteLenAux : Nat → Nat → Nat
  | 0, _ => 0
  | fuel + 1, n => if n = 0 then 0 else byteLenAux fuel (n / 256) + 1

/-- Length of the minimal big-endian base-256 representation of `n`
(`0` bytes for `n = 0`). -/
def byteLen (n : Nat) : Nat := byteLenAux n n

/-- Length in bytes of the base-58 decoding of `s`, or `none` when `s`
contains a character outside the base-58 alphabet.  The decoded bytes are one
zero byte per leading `1` character followed by the minimal big-endian
representation of the base-58 value of the rest. -/
def bs58DecodedLen (s : String) : Option Nat :=
  let cs := s.data
  let k := leadingOnes cs
  match b58ValueAux 0 (cs.drop k) with
  | none => none
  | some v => some (k + byteLen v)

/-- Model of `new PublicKey(s)` from `@solana/web3.js` (an external dependency
of both source files): base-58 decode, then require exactly 32 decoded bytes.
On success the handlers only ever use `address.toString()`, which returns the
canonical base-58 rendering of the 32 bytes, i.e. the accepted input string
itself. -/
def parsePubkey (s : String) : Except String String :=
  match bs58DecodedLen s with
  | none => Except.error "Non-base58 character"
  | some n => if n = 32 then Except.ok s else Except.error "Invalid public key input"

/-- `isPotentiallySolanaAddress` from the balance handler: the regex test
`/^[1-9A-HJ-NP-Za-km-z]\x7b32,44\x7d$/.test(str)` — every character in the
base-58 class and total length between 32 and 44. -/
def isPotentiallySolanaAddress (s : String) : Bool :=
  decide (32 ≤ s.length) && decide (s.length ≤ 44) &&
    s.data.all fun c => (b58Digit c).isSome

/-- The 58-character base-58 alphabet (the spec's "base-58 alphabet excluding
`0OIl`"), used to state the spec-side reading of the validator. -/
def base58Alphabet : String :=
  "123456789ABCDEFGHJKLMNPQRSTUVWXYZabcdefghijkmnopqrstuvwxyz"

/-- Spec-side reading of the Address Validator contract, following the words
of the spec: length between 32 and 44 inclusive and every character drawn from
the base-58 alphabet. -/
def specValidAddress (s : String) : Prop :=
  32 ≤ s.length ∧ s.length ≤ 44 ∧ ∀ c ∈ s.data, c ∈ base58Alphabet.data

instance (s : String) : Decidable (specValidAddress s) := by
  unfold specValidAddress; infer_instance

/-- Events recorded by the embedded handlers: outbound language-model calls,
the fixing-parse step, the address-validator check, public-key construction,
the three ledger RPC calls, and timed sleeps (milliseconds). -/
inductive Ev where
  | llmInvoke
  | fixParse
  | validate
  | parseAddress
  | rpcGetBalance
  | rpcRequestAirdrop
  | rpcConfirm
  | sleep (ms : Nat)
  deriving DecidableEq, Repr

/-- Is the event a call to the remote ledger RPC? -/
def Ev.isRpcCall : Ev → Bool
  | .rpcGetBalance => true
  | .rpcRequestAirdrop => true
  | .rpcConfirm => true
  | _ => false

/-- Result of a run of the retrying RPC client: the outcome (`Except.error e`
for a thrown error, `Except.ok none` for the JS `undefined` that falls out of
an exhausted zero-iteration loop, `Except.ok (some v)` for a returned value)
together with the log of RPC attempts and sleeps. -/
structure RetryTrace (ε α : Type) where
  outcome : Except ε (Option α)
  log : List Ev
  deriving Repr

/-- Loop body of `getBalanceWithRetry`, translated from

```js
for (let i = 0; i < maxRetries; i++) \x7b
  try \x7b return await connection.getBalance(publicKey, "confirmed"); \x7d
  catch (error) \x7b
    if (i === maxRetries - 1) throw error;
    await new Promise(resolve => setTimeout(resolve, 1000));
  \x7d
\x7d
```

`call i` is the oracle for the attempt with loop counter `i`; `fuel` is the
number of loop iterations still to run (`maxRetries - i`), making the
recursion structural. -/
def retryAux (call : Nat → Except ε α) (maxRetries : Nat) (i : Nat) :
    Nat → RetryTrace ε α
  | 0 => ⟨.ok none, []⟩
  | fuel + 1 =>
    match call i with
    | .ok v => ⟨.ok (some v), [.rpcGetBalance]⟩
    | .error e =>
      if i = maxRetries - 1 then ⟨.error e, [.rpcGetBalance]⟩
      else
        let r := retryAux call maxRetries (i + 1) fuel
        ⟨r.outcome, .rpcGetBalance :: .sleep 1000 :: r.log⟩

/-- `getBalanceWithRetry` (identical in `be/index.js` and the balance
handler): up to `maxRetries` attempts (default 5), a fixed 1000 ms sleep after
every failure except the last, the last failure rethrown unmodified. -/
def getBalanceWithRetry (call : Nat → Except ε α) (maxRetries : Nat := 5) :
    RetryTrace ε α :=
  retryAux call maxRetries 0 maxRetries

/-- Number of RPC attempts recorded in a retry trace. -/
def attemptsOf (t : RetryTrace ε α) : Nat := t.log.count Ev.rpcGetBalance

/-- The sleeps (in ms) recorded in a retry trace, in order. -/
def delaysOf (t : RetryTrace ε α) : List Nat :=
  t.log.filterMap fun e => match e with | .sleep n => some n | _ => none

/-- `LAMPORTS_PER_SOL` from `@solana/web3.js`: 10^9 lamports per SOL. -/
def LAMPORTS_PER_SOL : ℚ := 1000000000

/-- `lamportsToSol` from `be/index.js`: division by `LAMPORTS_PER_SOL`,
modelled exactly over `ℚ`. -/
def lamportsToSol (lamports : ℚ) : ℚ := lamports / LAMPORTS_PER_SOL

/-- The JSON bodies the handlers can serialize.  `Option` fields hold `none`
where the JS value would be `undefined`/NaN (possible only through the
zero-iteration retry loop). -/
inductive RespBody where
  /-- `\x7b error, details \x7d` bodies of `be/index.js` error responses. -/
  | errorBody (error details : String)
  /-- `\x7b error, message \x7d` bodies of the natural-language handler. -/
  | errorMsg (error message : String)
  /-- Body of the REST balance endpoint success response. -/
  | balance (publicKey : String) (balanceInLamports : Option Nat)
      (balanceInSOL : Option ℚ) (message : String)
  /-- `\x7b status: "needs_address", message \x7d` of the natural-language
  handler. -/
  | needsAddress (message : String)
  /-- `\x7b status: "success", ... \x7d` body of the natural-language
  handler. -/
  | natBalance (publicKey : String) (balanceInLamports : Option Nat)
      (balanceInSOL : Option ℚ) (message : String)
  /-- Success body of the airdrop endpoint. -/
  | airdrop (publicKey signature : String) (requestedAmount : ℚ)
      (initialBalanceSOL newBalanceSOL actualChangeSOL : Option ℚ)
      (message status : String)
  deriving DecidableEq

/-- An HTTP response: status code plus JSON body. -/
structure Resp where
  status : Nat
  body : RespBody
  deriving DecidableEq

/-- Oracles for the remote calls made by the airdrop endpoint.  The two
balance reads are separate attempt-indexed oracles because each runs its own
retry loop. -/
structure AirdropRpc where
  /-- `connection.getBalance` during the initial read, by attempt index. -/
  initialCall : Nat → Except String Nat
  /-- `connection.requestAirdrop(address, lamports)`: the signature, or a
  thrown error. -/
  airdropSubmit : ℚ → Except String String
  /-- `connection.confirmTransaction(signature, "confirmed")`: `ok err?`
  models `\x7b value: \x7b err \x7d \x7d` where the optional string stands
  for `JSON.stringify` of the transaction-level error object; `error e`
  models a thrown confirmation error. -/
  confirmTx : Except String (Option String)
  /-- `connection.getBalance` during the post-settle read, by attempt
  index. -/
  settleCall : Nat → Except String Nat

/-- The `POST /api/wallet/airdrop` handler of `be/index.js`, lines 95–155:
parameter presence check (JS truthiness: empty string and 0 are missing),
`new PublicKey`, initial balance read with retry, airdrop submission,
confirmation (a transaction-level error is rethrown as
`Transaction failed: ...` and rewrapped as
`Transaction confirmation failed: ...`), a 2000 ms settle sleep, post-settle
balance read with retry, and the delta response.  Every thrown error reaches
the outer catch and becomes a 500 `Airdrop failed` response. -/
def airdropRoute (rpc : AirdropRpc) (publicKey : String) (amount : ℚ) :
    Resp × List Ev :=
  if publicKey = "" ∨ amount = 0 then
    (⟨400, .errorBody "Missing required parameters"
        "Both publicKey and amount are required"⟩, [])
  else
    match parsePubkey publicKey with
    | .error e => (⟨500, .errorBody "Airdrop failed" e⟩, [.parseAddress])
    | .ok address =>
      let lamports := amount * LAMPORTS_PER_SOL
      let r1 := getBalanceWithRetry rpc.initialCall 5
      match r1.outcome with
      | .error e =>
        (⟨500, .errorBody "Airdrop failed" e⟩, .parseAddress :: r1.log)
      | .ok initialBalance =>
        match rpc.airdropSubmit lamports with
        | .error e =>
          (⟨500, .errorBody "Airdrop failed" e⟩,
           .parseAddress :: r1.log ++ [.rpcRequestAirdrop])
        | .ok signature =>
          let confirmStep : Except String Unit :=
            match rpc.confirmTx with
            | .error e =>
              .error ("Transaction confirmation failed: " ++ e)
            | .ok (some err) =>
              .error ("Transaction confirmation failed: " ++
                ("Transaction failed: " ++ err))
            | .ok none => .ok ()
          match confirmStep with
          | .error e =>
            (⟨500, .errorBody "Airdrop failed" e⟩,
             .parseAddress :: r1.log ++ [.rpcRequestAirdrop, .rpcConfirm])
          | .ok () =>
            let r2 := getBalanceWithRetry rpc.settleCall 5
            match r2.outcome with
            | .error e =>
              (⟨500, .errorBody "Airdrop failed" e⟩,
               .parseAddress :: r1.log ++
                 [.rpcRequestAirdrop, .rpcConfirm, .sleep 2000] ++ r2.log)
            | .ok newBalance =>
              let balanceChange : Option Int :=
                match newBalance, initialBalance with
                | some n, some i0 => some ((n : Int) - (i0 : Int))
                | _, _ => none
              (⟨200, .airdrop address signature amount
                  (initialBalance.map fun b => lamportsToSol (b : ℚ))
                  (newBalance.map fun b => lamportsToSol (b : ℚ))
                  (balanceChange.map fun c => lamportsToSol (c : ℚ))
                  "Airdrop successful" "confirmed"⟩,
               .parseAddress :: r1.log ++
                 [.rpcRequestAirdrop, .rpcConfirm, .sleep 2000] ++ r2.log)

/-- The `GET /api/wallet/balance/:publicKey` handler of `be/index.js`,
lines 72–92: `new PublicKey` then `getBalanceWithRetry`; any thrown error
becomes a 500 `Failed to fetch balance` response. -/
def balanceRoute (rpc : Nat → Except String Nat) (publicKey : String) :
    Resp × List Ev :=
  match parsePubkey publicKey with
  | .error e =>
    (⟨500, .errorBody "Failed to fetch balance" e⟩, [.parseAddress])
  | .ok address =>
    let r := getBalanceWithRetry rpc 5
    match r.outcome with
    | .error e =>
      (⟨500, .errorBody "Failed to fetch balance" e⟩, .parseAddress :: r.log)
    | .ok balance =>
      (⟨200, .balance address balance
          (balance.map fun b => lamportsToSol (b : ℚ))
          "Balance fetched successfully"⟩, .parseAddress :: r.log)

/-- The structured intent produced by the output parsers: three opaque string
fields. -/
structure ParsedIntent where
  action : String
  publicKey : String
  needsAddress : String
  deriving DecidableEq

/-- Oracles for the language-model side of the natural-language handler:
the partial variable `format_instructions`, `model.invoke` (returning the
response content), and `fixingParser.parse`. -/
structure LlmEnv where
  formatInstructions : String
  invoke : String → Except String String
  fixParse : String → Except String ParsedIntent

/-- `promptTemplate.format(\x7b query \x7d)`: the template literal of the
balance handler with `\x7bquery\x7d` and `\x7bformat_instructions\x7d`
substituted. -/
def promptFormat (formatInstructions query : String) : String :=
  "Extract information from the following user query about a Solana wallet balance.\n" ++
  "    If a public key/address is mentioned, identify it. If no address is provided, indicate that we need to request it.\n\n" ++
  "    User Query: " ++ query ++ "\n\n    " ++ formatInstructions ++
  "\n    \n    Helpful notes:\n" ++
  "    - Solana addresses are base58-encoded and typically 32-44 characters long\n" ++
  "    - They often start with a number or letter\n" ++
  "    - If you\x27re unsure if something is a valid address, set needsAddress to \x27true\x27\n" ++
  "    - All values in the response must be strings\n" ++
  "    - Use \x27none\x27 for publicKey if no address is found\n" ++
  "    - Use \x27true\x27 or \x27false\x27 as strings for needsAddress\n" ++
  "    \n    Provide your response in the exact format requested:"

/-- The `POST /api/natural/balance` handler (`handleBalanceQuery` of the
balance handler file): missing-query check, prompt formatting, LLM call,
fixing-parser parse, needs-address short-circuit
(`needsAddress === "true" || publicKey === "none"`), regex validation,
then `new PublicKey` + retrying balance fetch inside a try whose catch
returns 400 `Balance fetch failed`; errors before that try become 500
`Processing failed`. -/
def handleBalanceQuery (env : LlmEnv) (rpc : Nat → Except String Nat)
    (query : String) : Resp × List Ev :=
  if query = "" then
    (⟨400, .errorMsg "Missing query parameter"
        "Please provide a natural language query"⟩, [])
  else
    let promptValue := promptFormat env.formatInstructions query
    match env.invoke promptValue with
    | .error e => (⟨500, .errorMsg "Processing failed" e⟩, [.llmInvoke])
    | .ok llmResponseText =>
      match env.fixParse llmResponseText with
      | .error e =>
        (⟨500, .errorMsg "Processing failed" e⟩, [.llmInvoke, .fixParse])
      | .ok parsedResponse =>
        if parsedResponse.needsAddress = "true" ∨
            parsedResponse.publicKey = "none" then
          (⟨200, .needsAddress
              "Please provide a Solana wallet address to check the balance"⟩,
           [.llmInvoke, .fixParse])
        else if ¬ isPotentiallySolanaAddress parsedResponse.publicKey then
          (⟨400, .errorMsg "Invalid address format"
              "The provided address does not appear to be a valid Solana address"⟩,
           [.llmInvoke, .fixParse, .validate])
        else
          match parsePubkey parsedResponse.publicKey with
          | .error e =>
            (⟨400, .errorMsg "Balance fetch failed" e⟩,
             [.llmInvoke, .fixParse, .validate, .parseAddress])
          | .ok address =>
            let r := getBalanceWithRetry rpc 5
            match r.outcome with
            | .error e =>
              (⟨400, .errorMsg "Balance fetch failed" e⟩,
               [.llmInvoke, .fixParse, .validate, .parseAddress] ++ r.log)
            | .ok balance =>
              (⟨200, .natBalance address balance
                  (balance.map fun b => (b : ℚ) / 1000000000)
                  "Balance fetched successfully"⟩,
               [.llmInvoke, .fixParse, .validate, .parseAddress] ++ r.log)

/-- Modelled from the spec: `OutputFixingParser.parse` of the langchain
dependency is not part of this repository's sources; the spec describes it as
"on a parse failure, invokes a secondary fixing pass that resubmits the
malformed text with the schema for self-correction, and re-parses — this is a
single corrective retry, not unbounded".  `parseFn` is the structured output
parse against the schema, `fixLLM` the schema-guided repair invocation of the
language model.  The second component counts the parse attempts made. -/
def fixingParse (parseFn : String → Except String ParsedIntent)
    (fixLLM : String → Except String String) (text : String) :
    Except String ParsedIntent × Nat :=
  match parseFn text with
  | .ok p => (.ok p, 1)
  | .error _ =>
    match fixLLM text with
    | .error e => (.error e, 1)
    | .ok fixedText =>
      match parseFn fixedText with
      | .ok p => (.ok p, 2)
      | .error e => (.error e, 2)

/-- Airdrop RPC stub for concrete runs: initial balance 0, submission returns
a fixed signature, confirmation succeeds with no transaction-level error,
post-settle balance 10^9 lamports (1 SOL). -/
def rpcAllOk : AirdropRpc where
  initialCall := fun _ => .ok 0
  airdropSubmit := fun _ => .ok "stub-signature"
  confirmTx := .ok none
  settleCall := fun _ => .ok 1000000000

/-- Airdrop RPC stub whose confirmation reports a transaction-level error. -/
def rpcConfirmErr : AirdropRpc where
  initialCall := fun _ => .ok 0
  airdropSubmit := fun _ => .ok "stub-signature"
  confirmTx := .ok (some "\x7b\x22InstructionError\x22:[0,0]\x7d")
  settleCall := fun _ => .ok 0

/-- Balance oracle that always fails. -/
def rpcDown : Nat → Except String Nat := fun _ => .error "getBalance failed"

/-- Balance oracle that always succeeds with 5 lamports. -/
def rpcFive : Nat → Except String Nat := fun _ => .ok 5

/-- LLM environment stub whose fixing parser always yields `p`. -/
def llmStub (p : ParsedIntent) : LlmEnv where
  formatInstructions := "stub format instructions"
  invoke := fun _ => .ok "stub llm output"
  fixParse := fun _ => .ok p

/-- The only invalid-address failure the program can produce (the spec's
`InvalidAddress`): the 400 response of the natural-language handler. -/
def invalidAddressResp : Resp :=
  ⟨400, .errorMsg "Invalid address format"
      "The provided address does not appear to be a valid Solana address"⟩

/-! ## Helper lemmas: base-58 decoding bounds -/

theorem char_eq_of_toNat_eq {c d : Char} (h : c.toNat = d.toNat) : c = d :=
  Char.eq_of_val_eq (UInt32.ext h)

theorem b58Digit_le {c : Char} {d : Nat} (h : b58Digit c = some d) : d ≤ 57 := by
  simp only [b58Digit] at h
  split_ifs at h <;> simp only [Option.some.injEq] at h <;> omega

theorem b58Digit_pos {c : Char} {d : Nat} (h : b58Digit c = some d)
    (hc : c ≠ '1') : 1 ≤ d := by
  have hne : c.toNat ≠ 49 := fun he => hc (char_eq_of_toNat_eq he)
  simp only [b58Digit] at h
  split_ifs at h <;> simp only [Option.some.injEq] at h <;> omega

theorem leadingOnes_le (cs : List Char) : leadingOnes cs ≤ cs.length := by
  induction cs with
  | nil => simp [leadingOnes]
  | cons c cs ih =>
    simp only [leadingOnes, List.length_cons]
    split <;> omega

theorem mem_take_leadingOnes (cs : List Char) :
    ∀ c ∈ cs.take (leadingOnes cs), c = '1' := by
  induction cs with
  | nil => simp
  | cons c cs ih =>
    simp only [leadingOnes]
    split
    · next h1 =>
      intro d hd
      rw [List.take_succ_cons] at hd
      rcases List.mem_cons.mp hd with h | h
      · exact h.trans h1
      · exact ih d h
    · simp

theorem drop_leadingOnes (cs : List Char) :
    cs.drop (leadingOnes cs) = [] ∨
      ∃ c cs', cs.drop (leadingOnes cs) = c :: cs' ∧ c ≠ '1' := by
  induction cs with
  | nil => left; simp
  | cons c cs ih =>
    simp only [leadingOnes]
    split
    · next h1 => simpa using ih
    · next h1 => right; exact ⟨c, cs, by simp, h1⟩

theorem b58ValueAux_mem :
    ∀ (cs : List Char) (acc v : Nat), b58ValueAux acc cs = some v →
      ∀ c ∈ cs, (b58Digit c).isSome := by
  intro cs
  induction cs with
  | nil => simp
  | cons c cs ih =>
    intro acc v h d hd
    simp only [b58ValueAux] at h
    cases hc : b58Digit c with
    | none => rw [hc] at h; exact absurd h (by simp)
    | some dc =>
      rw [hc] at h
      rcases List.mem_cons.mp hd with rfl | hmem
      · simp [hc]
      · exact ih _ _ h d hmem

theorem b58ValueAux_lt :
    ∀ (cs : List Char) (acc v : Nat), b58ValueAux acc cs = some v →
      v < (acc + 1) * 58 ^ cs.length := by
  intro cs
  induction cs with
  | nil =>
    intro acc v h
    simp only [b58ValueAux, Option.some.injEq] at h
    subst h; simp
  | cons c cs ih =>
    intro acc v h
    simp only [b58ValueAux] at h
    cases hc : b58Digit c with
    | none => rw [hc] at h; exact absurd h (by simp)
    | some d =>
      rw [hc] at h
      have hv := ih _ _ h
      have hd : d ≤ 57 := b58Digit_le hc
      have hstep : (acc * 58 + d + 1) * 58 ^ cs.length ≤
          ((acc + 1) * 58) * 58 ^ cs.length :=
        Nat.mul_le_mul_right _ (by omega)
      have : v < ((acc + 1) * 58) * 58 ^ cs.length := lt_of_lt_of_le hv hstep
      simpa [List.length_cons, pow_succ, Nat.mul_assoc, Nat.mul_comm,
        Nat.mul_left_comm] using this

theorem b58ValueAux_ge :
    ∀ (cs : List Char) (acc v : Nat), b58ValueAux acc cs = some v →
      acc * 58 ^ cs.length ≤ v := by
  intro cs
  induction cs with
  | nil =>
    intro acc v h
    simp only [b58ValueAux, Option.some.injEq] at h
    subst h; simp
  | cons c cs ih =>
    intro acc v h
    simp only [b58ValueAux] at h
    cases hc : b58Digit c with
    | none => rw [hc] at h; exact absurd h (by simp)
    | some d =>
      rw [hc] at h
      have hv := ih _ _ h
      have hstep : acc * 58 ^ (cs.length + 1) ≤ (acc * 58 + d) * 58 ^ cs.length := by
        have : acc * 58 ≤ acc * 58 + d := Nat.le_add_right _ _
        calc acc * 58 ^ (cs.length + 1) = (acc * 58) * 58 ^ cs.length := by ring
          _ ≤ (acc * 58 + d) * 58 ^ cs.length := Nat.mul_le_mul_right _ this
      simpa [List.length_cons] using le_trans hstep hv

theorem byteLenAux_le (fuel : Nat) :
    ∀ n m, n ≤ fuel → n < 256 ^ m → byteLenAux fuel n ≤ m := by
  induction fuel with
  | zero =>
    intro n m hn _
    interval_cases n
    simp [byteLenAux]
  | succ fuel ih =>
    intro n m hn hm
    by_cases h0 : n = 0
    · simp [byteLenAux, h0]
    · rw [show byteLenAux (fuel + 1) n = byteLenAux fuel (n / 256) + 1 by
        simp [byteLenAux, h0]]
      cases m with
      | zero => simp at hm; omega
      | succ m' =>
        have hdiv : n / 256 < 256 ^ m' := by
          apply (Nat.div_lt_iff_lt_mul (by norm_num)).mpr
          calc n < 256 ^ (m' + 1) := hm
            _ = 256 ^ m' * 256 := by ring
        have hfuel : n / 256 ≤ fuel := by
          have := Nat.div_lt_self (Nat.pos_of_ne_zero h0) (by norm_num : 1 < 256)
          omega
        exact Nat.succ_le_succ (ih _ _ hfuel hdiv)

theorem byteLenAux_ge (fuel : Nat) :
    ∀ n m, n ≤ fuel → 256 ^ m ≤ n → m + 1 ≤ byteLenAux fuel n := by
  induction fuel with
  | zero =>
    intro n m hn hm
    have : 0 < 256 ^ m := Nat.pos_pow_of_pos m (by norm_num)
    omega
  | succ fuel ih =>
    intro n m hn hm
    have hpos : 0 < 256 ^ m := Nat.pos_pow_of_pos m (by norm_num)
    have h0 : n ≠ 0 := by omega
    rw [show byteLenAux (fuel + 1) n = byteLenAux fuel (n / 256) + 1 by
      simp [byteLenAux, h0]]
    cases m with
    | zero => omega
    | succ m' =>
      have hdiv : 256 ^ m' ≤ n / 256 := by
        apply (Nat.le_div_iff_mul_le (by norm_num : 0 < 256)).mpr
        calc 256 ^ m' * 256 = 256 ^ (m' + 1) := by ring
          _ ≤ n := hm
      have hfuel : n / 256 ≤ fuel := by
        have := Nat.div_lt_self (Nat.pos_of_ne_zero h0) (by norm_num : 1 < 256)
        omega
      exact Nat.succ_le_succ (ih _ _ hfuel hdiv)

theorem pow_58_bound : ∀ i, i ≤ 32 → 256 ^ (32 - i) ≤ 58 ^ (44 - i) := by
  intro i
  induction i with
  | zero => intro _; exact (by decide : (256 : Nat) ^ 32 ≤ 58 ^ 44)
  | succ i ih =>
    intro hi
    have hih := ih (by omega)
    obtain ⟨a, ha⟩ : ∃ a, 32 - i = a + 1 := ⟨32 - (i + 1), by omega⟩
    obtain ⟨b, hb⟩ : ∃ b, 44 - i = b + 1 := ⟨44 - (i + 1), by omega⟩
    have ha' : 32 - (i + 1) = a := by omega
    have hb' : 44 - (i + 1) = b := by omega
    rw [ha, hb] at hih
    rw [ha', hb']
    have : 58 * 256 ^ a ≤ 58 * 58 ^ b := by
      calc 58 * 256 ^ a ≤ 256 * 256 ^ a := Nat.mul_le_mul_right _ (by norm_num)
        _ = 256 ^ (a + 1) := by ring
        _ ≤ 58 ^ (b + 1) := hih
        _ = 58 * 58 ^ b := by ring
    exact Nat.le_of_mul_le_mul_left this (by norm_num)

theorem all_b58_of_decode (s : String) {v : Nat}
    (h : b58ValueAux 0 (s.data.drop (leadingOnes s.data)) = some v) :
    (s.data.all fun c => (b58Digit c).isSome) = true := by
  rw [List.all_eq_true]
  intro c hc
  rw [← List.take_append_drop (leadingOnes s.data) s.data] at hc
  rcases List.mem_append.mp hc with h1 | h2
  · have hc1 : c = '1' := mem_take_leadingOnes _ c h1
    subst hc1; decide
  · simpa using b58ValueAux_mem _ _ _ h c h2

theorem length_out_of_range (s : String)
    (h : isPotentiallySolanaAddress s = false)
    (hall : (s.data.all fun c => (b58Digit c).isSome) = true) :
    s.data.length < 32 ∨ 44 < s.data.length := by
  have hsl : s.length = s.data.length := rfl
  simp only [isPotentiallySolanaAddress, hall, Bool.and_true, hsl] at h
  rcases Bool.and_eq_false_iff.mp h with h1 | h1 <;>
    [left; right] <;> simpa using of_decide_eq_false h1

/-- Every string rejected by the Address Validator's pattern is also rejected
by the `PublicKey` constructor: an invalid character fails the base-58 decode,
and a valid-alphabet string of length outside `[32,44]` cannot decode to
exactly 32 bytes. -/
theorem parsePubkey_error_of_invalid (s : String)
    (h : isPotentiallySolanaAddress s = false) :
    ∃ e, parsePubkey s = Except.error e := by
  simp only [parsePubkey, bs58DecodedLen]
  cases hv : b58ValueAux 0 (s.data.drop (leadingOnes s.data)) with
  | none => exact ⟨"Non-base58 character", rfl⟩
  | some v =>
    have hall := all_b58_of_decode s hv
    have hrange := length_out_of_range s h hall
    have hk := leadingOnes_le s.data
    have hne : ¬(leadingOnes s.data + byteLen v = 32) := by
      rcases hrange with hlt | hgt
      · have hvlt : v < 1 * 58 ^ (s.data.drop (leadingOnes s.data)).length := by
          simpa using b58ValueAux_lt _ 0 v hv
        have hv256 : v < 256 ^ (s.data.drop (leadingOnes s.data)).length :=
          lt_of_lt_of_le (by simpa using hvlt)
            (Nat.pow_le_pow_left (by norm_num) _)
        have hb : byteLen v ≤ (s.data.drop (leadingOnes s.data)).length :=
          byteLenAux_le v v _ (le_refl v) hv256
        rw [List.length_drop] at hb
        omega
      · rcases drop_leadingOnes s.data with hnil | ⟨c, cs', hdrop, hc1⟩
        · rw [hnil] at hv
          simp only [b58ValueAux, Option.some.injEq] at hv
          have hkge : s.data.length ≤ leadingOnes s.data :=
            List.drop_eq_nil_iff.mp hnil
          rw [← hv]
          simp only [byteLen, byteLenAux]
          omega
        · rw [hdrop] at hv
          simp only [b58ValueAux] at hv
          cases hcd : b58Digit c with
          | none => rw [hcd] at hv; exact absurd hv (by simp)
          | some d =>
            rw [hcd] at hv
            have hd1 : 1 ≤ d := b58Digit_pos hcd hc1
            have hge : (0 * 58 + d) * 58 ^ cs'.length ≤ v :=
              b58ValueAux_ge _ _ _ hv
            have hge' : 58 ^ cs'.length ≤ v := by
              have h1 : 1 * 58 ^ cs'.length ≤ (0 * 58 + d) * 58 ^ cs'.length :=
                Nat.mul_le_mul_right _ (by omega)

              simpa using le_trans h1 hge
            have hlen' : cs'.length + 1 = s.data.length - leadingOnes s.data := by
              have hcong := congrArg List.length hdrop
              simp only [List.length_drop, List.length_cons] at hcong
              omega
            by_cases hk32 : leadingOnes s.data ≤ 32
            · have h44 : 44 - leadingOnes s.data ≤ cs'.length := by omega
              have hvge : 58 ^ (44 - leadingOnes s.data) ≤ v :=
                le_trans (Nat.pow_le_pow_right (by norm_num) h44) hge'
              have h256 : 256 ^ (32 - leadingOnes s.data) ≤ v :=
                le_trans (pow_58_bound _ hk32) hvge
              have hbl := byteLenAux_ge v v _ (le_refl v) h256
              have : byteLen v = byteLenAux v v := rfl
              omega
            · have : 0 ≤ byteLen v := Nat.zero_le _
              omega
    exact ⟨"Invalid public key input", by simp [hne]⟩

/-- Every event in a retry-loop log is an RPC attempt or a 1000 ms sleep. -/
theorem retryAux_log_shape (call : Nat → Except ε α) (m : Nat) :
    ∀ fuel i, ∀ e ∈ (retryAux call m i fuel).log,
      e = Ev.rpcGetBalance ∨ e = Ev.sleep 1000 := by
  intro fuel
  induction fuel with
  | zero => intro i e he; simp [retryAux] at he
  | succ fuel ih =>
    intro i e he
    simp only [retryAux] at he
    split at he
    · simp at he; left; exact he
    · split at he
      · simp at he; left; exact he
      · simp only [List.mem_cons] at he
        rcases he with rfl | rfl | hmem
        · left; rfl
        · right; rfl
        · exact ih (i + 1) e hmem

theorem mem_map_toNat (c : Char) (l : List Char) :
    c ∈ l ↔ c.toNat ∈ l.map Char.toNat := by
  induction l with
  | nil => simp
  | cons d ds ih =>
    simp only [List.mem_cons, List.map, ih]
    constructor
    · rintro (rfl | h)
      · exact Or.inl rfl
      · exact Or.inr h
    · rintro (h | h)
      · exact Or.inl (char_eq_of_toNat_eq h)
      · exact Or.inr h

theorem b58_ranges_iff (c : Char) : (b58Digit c).isSome = true ↔
    ((49 ≤ c.toNat ∧ c.toNat ≤ 57) ∨ (65 ≤ c.toNat ∧ c.toNat ≤ 72) ∨
     (74 ≤ c.toNat ∧ c.toNat ≤ 78) ∨ (80 ≤ c.toNat ∧ c.toNat ≤ 90) ∨
     (97 ≤ c.toNat ∧ c.toNat ≤ 107) ∨ (109 ≤ c.toNat ∧ c.toNat ≤ 122)) := by
  simp only [b58Digit]
  split_ifs <;> simp <;> omega

theorem mem_b58_codes (n : Nat) :
    ((49 ≤ n ∧ n ≤ 57) ∨ (65 ≤ n ∧ n ≤ 72) ∨ (74 ≤ n ∧ n ≤ 78) ∨
     (80 ≤ n ∧ n ≤ 90) ∨ (97 ≤ n ∧ n ≤ 107) ∨ (109 ≤ n ∧ n ≤ 122)) ↔
      n ∈ base58Alphabet.data.map Char.toNat := by
  by_cases h : n < 123
  · exact (by decide : ∀ m, m < 123 →
      (((49 ≤ m ∧ m ≤ 57) ∨ (65 ≤ m ∧ m ≤ 72) ∨ (74 ≤ m ∧ m ≤ 78) ∨
        (80 ≤ m ∧ m ≤ 90) ∨ (97 ≤ m ∧ m ≤ 107) ∨ (109 ≤ m ∧ m ≤ 122)) ↔
          m ∈ base58Alphabet.data.map Char.toNat)) n h
  · constructor
    · intro hr; omega
    · intro hm
      have hlt : ∀ m ∈ base58Alphabet.data.map Char.toNat, m < 123 := by decide
      exact absurd (hlt n hm) h

theorem b58Digit_isSome_iff (c : Char) :
    (b58Digit c).isSome = true ↔ c ∈ base58Alphabet.data := by
  rw [b58_ranges_iff, mem_b58_codes, ← mem_map_toNat]

/-! ## Claim theorems -/

/-- C2: for every string `s`, the Address Validator returns true iff `s`
matches the pattern `^[1-9A-HJ-NP-Za-km-z]\x7b32,44\x7d$`: length between 32
and 44 inclusive and every character drawn from the base-58 alphabet
excluding `0OIl`; in particular it returns false outside that window or
alphabet and true inside. -/
theorem c2_validator_iff_base58_window (s : String) :
    isPotentiallySolanaAddress s = true ↔ specValidAddress s := by
  unfold isPotentiallySolanaAddress specValidAddress
  simp only [Bool.and_eq_true, decide_eq_true_eq, List.all_eq_true]
  constructor
  · rintro ⟨⟨h1, h2⟩, h3⟩
    exact ⟨h1, h2, fun c hc => (b58Digit_isSome_iff c).mp (h3 c hc)⟩
  · rintro ⟨h1, h2, h3⟩
    exact ⟨⟨h1, h2⟩, fun c hc => (b58Digit_isSome_iff c).mpr (h3 c hc)⟩

/-- C3: with an underlying call stub that fails on every attempt, the
retrying client makes exactly 5 attempts and fails with the final (5th)
attempt's underlying error, propagated unmodified — the outcome the spec
names `RpcExhaustedError`, surfaced with the last underlying cause. -/
theorem c3_retry_exhaustion (call : Nat → Except ε α) (e4 : ε)
    (hfail : ∀ i, i < 4 → ∃ e, call i = Except.error e)
    (h4 : call 4 = Except.error e4) :
    (getBalanceWithRetry call 5).outcome = Except.error e4 ∧
      attemptsOf (getBalanceWithRetry call 5) = 5 := by
  obtain ⟨e0, h0⟩ := hfail 0 (by omega)
  obtain ⟨e1, h1⟩ := hfail 1 (by omega)
  obtain ⟨e2, h2⟩ := hfail 2 (by omega)
  obtain ⟨e3, h3⟩ := hfail 3 (by omega)
  have hrun : getBalanceWithRetry call 5 =
      ⟨Except.error e4,
       [.rpcGetBalance, .sleep 1000, .rpcGetBalance, .sleep 1000,
        .rpcGetBalance, .sleep 1000, .rpcGetBalance, .sleep 1000,
        .rpcGetBalance]⟩ := by
    simp [getBalanceWithRetry, retryAux, h0, h1, h2, h3, h4]
  rw [hrun]
  constructor
  · rfl
  · simp [attemptsOf, List.count_cons]

/-- C3 witness: a stub failing every attempt with `boom`. -/
theorem c3_retry_exhaustion_witness :
    (getBalanceWithRetry (fun _ => (Except.error "boom" : Except String Nat)) 5).outcome
        = Except.error "boom" ∧
      attemptsOf (getBalanceWithRetry
        (fun _ => (Except.error "boom" : Except String Nat)) 5) = 5 :=
  c3_retry_exhaustion (fun _ => Except.error "boom") "boom"
    (fun _ _ => ⟨"boom", rfl⟩) rfl

/-- C4: with a stub failing on exactly the first 4 attempts and succeeding
on the 5th, the retrying client returns the success value having performed
exactly 4 delays of 1000 ms (one after each failure). -/
theorem c4_retry_eventual_success (call : Nat → Except ε α) (v : α)
    (hfail : ∀ i, i < 4 → ∃ e, call i = Except.error e)
    (h4 : call 4 = Except.ok v) :
    (getBalanceWithRetry call 5).outcome = Except.ok (some v) ∧
      delaysOf (getBalanceWithRetry call 5) = [1000, 1000, 1000, 1000] := by
  obtain ⟨e0, h0⟩ := hfail 0 (by omega)
  obtain ⟨e1, h1⟩ := hfail 1 (by omega)
  obtain ⟨e2, h2⟩ := hfail 2 (by omega)
  obtain ⟨e3, h3⟩ := hfail 3 (by omega)
  have hrun : getBalanceWithRetry call 5 =
      ⟨Except.ok (some v),
       [.rpcGetBalance, .sleep 1000, .rpcGetBalance, .sleep 1000,
        .rpcGetBalance, .sleep 1000, .rpcGetBalance, .sleep 1000,
        .rpcGetBalance]⟩ := by
    simp [getBalanceWithRetry, retryAux, h0, h1, h2, h3, h4]
  rw [hrun]
  exact ⟨rfl, rfl⟩

/-- C4 witness: a stub failing 4 times then returning 7. -/
theorem c4_retry_eventual_success_witness :
    (getBalanceWithRetry
        (fun i => if i < 4 then (Except.error "boom" : Except String Nat)
          else Except.ok 7) 5).outcome = Except.ok (some 7) ∧
      delaysOf (getBalanceWithRetry
        (fun i => if i < 4 then (Except.error "boom" : Except String Nat)
          else Except.ok 7) 5) = [1000, 1000, 1000, 1000] :=
  c4_retry_eventual_success _ 7
    (fun i hi => ⟨"boom", by rw [if_pos hi]⟩) rfl

/-- C5: when the Confirm step's result carries a transaction-level error, the
airdrop endpoint responds with the 500 `Airdrop failed` error embedding that
error (wrapped as `Transaction failed: ...` then
`Transaction confirmation failed: ...`), the log ends at the confirmation
call — no 2000 ms settle sleep, no post-settle balance read — and no success
body (no partial `AirdropResult`) is returned. -/
theorem c5_confirm_error_aborts (rpc : AirdropRpc) (pk : String) (amount : ℚ)
    (b0 : Nat) (sig err : String)
    (hpk : pk ≠ "") (hamt : amount ≠ 0)
    (hkey : parsePubkey pk = Except.ok pk)
    (hinit : (getBalanceWithRetry rpc.initialCall 5).outcome = Except.ok (some b0))
    (hsub : rpc.airdropSubmit (amount * LAMPORTS_PER_SOL) = Except.ok sig)
    (hconf : rpc.confirmTx = Except.ok (some err)) :
    airdropRoute rpc pk amount =
      (⟨500, .errorBody "Airdrop failed"
          ("Transaction confirmation failed: " ++ ("Transaction failed: " ++ err))⟩,
       .parseAddress :: (getBalanceWithRetry rpc.initialCall 5).log ++
         [.rpcRequestAirdrop, .rpcConfirm]) ∧
      Ev.sleep 2000 ∉ (airdropRoute rpc pk amount).2 := by
  have hmain : airdropRoute rpc pk amount =
      (⟨500, .errorBody "Airdrop failed"
          ("Transaction confirmation failed: " ++ ("Transaction failed: " ++ err))⟩,
       .parseAddress :: (getBalanceWithRetry rpc.initialCall 5).log ++
         [.rpcRequestAirdrop, .rpcConfirm]) := by
    simp [airdropRoute, hpk, hamt, hkey, hinit, hsub, hconf]
  refine ⟨hmain, ?_⟩
  rw [hmain]
  intro hmem
  rcases List.mem_cons.mp hmem with h | h
  · exact absurd h (by decide)
  · rcases List.mem_append.mp h with h | h
    · rcases retryAux_log_shape rpc.initialCall 5 5 0 _ h with h' | h' <;>
        exact absurd h' (by decide)
    · rcases List.mem_cons.mp h with h' | h'
      · exact absurd h' (by decide)
      · rcases List.mem_cons.mp h' with h'' | h''
        · exact absurd h'' (by decide)
        · simp at h''

/-- C5 witness: a run whose confirmation reports a transaction-level
error. -/
theorem c5_confirm_error_aborts_witness :
    airdropRoute rpcConfirmErr "11111111111111111111111111111111" 1 =
      (⟨500, .errorBody "Airdrop failed"
          ("Transaction confirmation failed: " ++
            ("Transaction failed: " ++ "\x7b\x22InstructionError\x22:[0,0]\x7d"))⟩,
       .parseAddress :: (getBalanceWithRetry rpcConfirmErr.initialCall 5).log ++
         [.rpcRequestAirdrop, .rpcConfirm]) ∧
      Ev.sleep 2000 ∉
        (airdropRoute rpcConfirmErr "11111111111111111111111111111111" 1).2 :=
  c5_confirm_error_aborts rpcConfirmErr "11111111111111111111111111111111" 1
    0 "stub-signature" "\x7b\x22InstructionError\x22:[0,0]\x7d"
    (by decide) (by norm_num) rfl rfl rfl rfl

/-- C6: a fully successful airdrop run returns status 200 with an
`AirdropResult` whose `actualChangeSOL` is the post-settle balance minus the
initial balance (scaled to SOL) and whose status field is `confirmed`. -/
theorem c6_airdrop_delta (rpc : AirdropRpc) (pk : String) (amount : ℚ)
    (b0 b1 : Nat) (sig : String)
    (hpk : pk ≠ "") (hamt : amount ≠ 0)
    (hkey : parsePubkey pk = Except.ok pk)
    (hinit : (getBalanceWithRetry rpc.initialCall 5).outcome = Except.ok (some b0))
    (hsub : rpc.airdropSubmit (amount * LAMPORTS_PER_SOL) = Except.ok sig)
    (hconf : rpc.confirmTx = Except.ok none)
    (hsettle : (getBalanceWithRetry rpc.settleCall 5).outcome = Except.ok (some b1)) :
    (airdropRoute rpc pk amount).1 =
      ⟨200, .airdrop pk sig amount (some (lamportsToSol (b0 : ℚ)))
        (some (lamportsToSol (b1 : ℚ)))
        (some (lamportsToSol ((b1 : ℚ) - (b0 : ℚ))))
        "Airdrop successful" "confirmed"⟩ := by
  have hcast : (((b1 : Int) - (b0 : Int) : Int) : ℚ) = (b1 : ℚ) - (b0 : ℚ) := by
    push_cast; ring
  simp [airdropRoute, hpk, hamt, hkey, hinit, hsub, hconf, hsettle, hcast]

/-- C6 witness: initial balance 0 lamports, requested amount 1 SOL,
post-settle balance 10^9 lamports; the delta is exactly 1 SOL. -/
theorem c6_airdrop_delta_witness :
    (airdropRoute rpcAllOk "11111111111111111111111111111111" 1).1 =
      ⟨200, .airdrop "11111111111111111111111111111111" "stub-signature" 1
        (some 0) (some 1) (some 1) "Airdrop successful" "confirmed"⟩ := by
  have h := c6_airdrop_delta rpcAllOk "11111111111111111111111111111111" 1
    0 1000000000 "stub-signature" (by decide) (by norm_num) rfl
    rfl rfl rfl rfl
  rw [h]
  norm_num [lamportsToSol, LAMPORTS_PER_SOL]

/-- C7: whenever the parsed intent has `needsAddress = "true"`, the
natural-language balance flow responds with the needs-address status and its
log contains no RPC call. -/
theorem c7_needs_address_no_rpc (env : LlmEnv) (rpc : Nat → Except String Nat)
    (query llmText : String) (p : ParsedIntent)
    (hq : query ≠ "")
    (hinv : env.invoke (promptFormat env.formatInstructions query) = Except.ok llmText)
    (hparse : env.fixParse llmText = Except.ok p)
    (hna : p.needsAddress = "true") :
    handleBalanceQuery env rpc query =
      (⟨200, .needsAddress
          "Please provide a Solana wallet address to check the balance"⟩,
       [.llmInvoke, .fixParse]) ∧
      (handleBalanceQuery env rpc query).2.all (fun e => !e.isRpcCall) = true := by
  have hmain : handleBalanceQuery env rpc query =
      (⟨200, .needsAddress
          "Please provide a Solana wallet address to check the balance"⟩,
       [.llmInvoke, .fixParse]) := by
    simp [handleBalanceQuery, hq, hinv, hparse, hna]
  exact ⟨hmain, by rw [hmain]; rfl⟩

/-- C7 witness: an extractor stub that always reports `needsAddress =
"true"`. -/
theorem c7_needs_address_no_rpc_witness :
    handleBalanceQuery (llmStub ⟨"get_balance", "none", "true"⟩) rpcFive
        "What is my balance" =
      (⟨200, .needsAddress
          "Please provide a Solana wallet address to check the balance"⟩,
       [.llmInvoke, .fixParse]) ∧
      (handleBalanceQuery (llmStub ⟨"get_balance", "none", "true"⟩) rpcFive
        "What is my balance").2.all (fun e => !e.isRpcCall) = true :=
  c7_needs_address_no_rpc (llmStub ⟨"get_balance", "none", "true"⟩) rpcFive
    "What is my balance" "stub llm output" ⟨"get_balance", "none", "true"⟩
    (by decide) rfl rfl rfl

/-- C8: the fixing parser performs at most one corrective repair pass — at
most two parse attempts on any input — and when the single repair attempt
still fails to parse, the result is the error of that second parse (the
`IntentParseError` surfaced by the handler). -/
theorem c8_single_repair (parseFn : String → Except String ParsedIntent)
    (fixLLM : String → Except String String) (text fixedText e1 e2 : String)
    (h1 : parseFn text = Except.error e1)
    (hfix : fixLLM text = Except.ok fixedText)
    (h2 : parseFn fixedText = Except.error e2) :
    (fixingParse parseFn fixLLM text).1 = Except.error e2 ∧
      (fixingParse parseFn fixLLM text).2 = 2 ∧
      ∀ t, (fixingParse parseFn fixLLM t).2 ≤ 2 := by
  refine ⟨by simp [fixingParse, h1, hfix, h2],
    by simp [fixingParse, h1, hfix, h2], ?_⟩
  intro t
  simp only [fixingParse]
  cases hp : parseFn t with
  | ok p => simp
  | error e =>
    cases hf : fixLLM t with
    | error eh => simp
    | ok ft =>
      cases hp2 : parseFn ft with
      | ok p => simp [hp2]
      | error eh => simp [hp2]

/-- C8 witness: a parse that always fails and a repair pass whose output
still fails to parse. -/
theorem c8_single_repair_witness :
    (fixingParse (fun _ => Except.error "bad") (fun _ => Except.ok "fixed")
        "raw").1 = Except.error "bad" ∧
      (fixingParse (fun _ => Except.error "bad") (fun _ => Except.ok "fixed")
        "raw").2 = 2 ∧
      ∀ t, (fixingParse (fun _ => (Except.error "bad" : Except String ParsedIntent))
        (fun _ => Except.ok "fixed") t).2 ≤ 2 :=
  c8_single_repair (fun _ => Except.error "bad") (fun _ => Except.ok "fixed")
    "raw" "fixed" "bad" "bad" rfl rfl rfl

/-- C9: whenever the parsed intent's `publicKey` equals the literal string
`none`, the natural-language balance flow responds with the needs-address
status — its log shows neither a validation step nor any RPC call — even when
`needsAddress` is `"false"`. -/
theorem c9_publicKey_none_shortcircuit (env : LlmEnv)
    (rpc : Nat → Except String Nat) (query llmText : String) (p : ParsedIntent)
    (hq : query ≠ "")
    (hinv : env.invoke (promptFormat env.formatInstructions query) = Except.ok llmText)
    (hparse : env.fixParse llmText = Except.ok p)
    (hpk : p.publicKey = "none") :
    handleBalanceQuery env rpc query =
      (⟨200, .needsAddress
          "Please provide a Solana wallet address to check the balance"⟩,
       [.llmInvoke, .fixParse]) ∧
      Ev.validate ∉ (handleBalanceQuery env rpc query).2 ∧
      (handleBalanceQuery env rpc query).2.all (fun e => !e.isRpcCall) = true := by
  have hmain : handleBalanceQuery env rpc query =
      (⟨200, .needsAddress
          "Please provide a Solana wallet address to check the balance"⟩,
       [.llmInvoke, .fixParse]) := by
    simp [handleBalanceQuery, hq, hinv, hparse, hpk]
  exact ⟨hmain, by rw [hmain]; decide, by rw [hmain]; rfl⟩

/-- C9 witness: an intent with `publicKey = "none"` and `needsAddress =
"false"`. -/
theorem c9_publicKey_none_shortcircuit_witness :
    handleBalanceQuery (llmStub ⟨"get_balance", "none", "false"⟩) rpcFive
        "balance please" =
      (⟨200, .needsAddress
          "Please provide a Solana wallet address to check the balance"⟩,
       [.llmInvoke, .fixParse]) ∧
      Ev.validate ∉ (handleBalanceQuery (llmStub ⟨"get_balance", "none", "false"⟩)
        rpcFive "balance please").2 ∧
      (handleBalanceQuery (llmStub ⟨"get_balance", "none", "false"⟩) rpcFive
        "balance please").2.all (fun e => !e.isRpcCall) = true :=
  c9_publicKey_none_shortcircuit (llmStub ⟨"get_balance", "none", "false"⟩)
    rpcFive "balance please" "stub llm output" ⟨"get_balance", "none", "false"⟩
    (by decide) rfl rfl rfl

/-- C10: an airdrop request whose amount is 0 or whose publicKey is the empty
string (both falsy in JS) is rejected with the 400
`Missing required parameters` response and an empty event log — before any
address parsing, balance read, or faucet submission. -/
theorem c10_missing_params (rpc : AirdropRpc) (pk : String) (amount : ℚ)
    (h : pk = "" ∨ amount = 0) :
    airdropRoute rpc pk amount =
      (⟨400, .errorBody "Missing required parameters"
          "Both publicKey and amount are required"⟩, []) := by
  unfold airdropRoute
  rw [if_pos h]

/-- C10 witness: amount 0 with a well-formed publicKey. -/
theorem c10_missing_params_witness :
    airdropRoute rpcAllOk "11111111111111111111111111111111" 0 =
      (⟨400, .errorBody "Missing required parameters"
          "Both publicKey and amount are required"⟩, []) :=
  c10_missing_params rpcAllOk "11111111111111111111111111111111" 0 (Or.inr rfl)

/-- C1 counterexample.  The REST endpoints do not behave as the claim states:
(a) for the pattern-failing input `z`, the airdrop and balance endpoints do
not fail with the invalid-address error — they return the generic 500
failures produced by the `PublicKey` constructor throwing; (b) a successful
airdrop run issues RPC calls although its log contains no Address-Validator
step at all, so no RPC call there is preceded by the validator accepting the
address. -/
theorem c1_counterexample :
    isPotentiallySolanaAddress "z" = false ∧
    (airdropRoute rpcAllOk "z" 1).1 =
      ⟨500, .errorBody "Airdrop failed" "Invalid public key input"⟩ ∧
    (airdropRoute rpcAllOk "z" 1).1 ≠ invalidAddressResp ∧
    (balanceRoute rpcFive "z").1 ≠ invalidAddressResp ∧
    ((airdropRoute rpcAllOk "11111111111111111111111111111111" 1).2.any
        (fun e => e.isRpcCall) = true ∧
      Ev.validate ∉
        (airdropRoute rpcAllOk "11111111111111111111111111111111" 1).2) := by
  refine ⟨by decide, by decide, by decide, by decide, by decide, by decide⟩

/-- C1 (amended): the Address Validator guards only the natural-language
flow.  For every string failing the validator's pattern: the REST balance
endpoint answers 500 `Failed to fetch balance` and the REST airdrop endpoint
(with present parameters) answers 500 `Airdrop failed`, in both cases from
the failed `PublicKey` construction, with no RPC call issued and no
validation step; and the natural-language flow (for an extracted key other
than the literal `none`, with `needsAddress` not `"true"`) answers with the
invalid-address error, likewise issuing no RPC call. -/
theorem c1_validator_guard_amended (s : String)
    (hv : isPotentiallySolanaAddress s = false) :
    (∀ rpc : Nat → Except String Nat, ∃ e,
        balanceRoute rpc s =
          (⟨500, .errorBody "Failed to fetch balance" e⟩, [.parseAddress])) ∧
    (∀ (rpc : AirdropRpc) (amount : ℚ), s ≠ "" → amount ≠ 0 → ∃ e,
        airdropRoute rpc s amount =
          (⟨500, .errorBody "Airdrop failed" e⟩, [.parseAddress])) ∧
    (∀ (env : LlmEnv) (rpc : Nat → Except String Nat) (query llmText : String)
        (p : ParsedIntent), query ≠ "" →
        env.invoke (promptFormat env.formatInstructions query) = Except.ok llmText →
        env.fixParse llmText = Except.ok p →
        p.publicKey = s → p.needsAddress ≠ "true" → s ≠ "none" →
        handleBalanceQuery env rpc query =
          (invalidAddressResp, [.llmInvoke, .fixParse, .validate])) := by
  obtain ⟨e, he⟩ := parsePubkey_error_of_invalid s hv
  refine ⟨?_, ?_, ?_⟩
  · intro rpc
    exact ⟨e, by simp [balanceRoute, he]⟩
  · intro rpc amount hs hamt
    exact ⟨e, by simp [airdropRoute, hs, hamt, he]⟩
  · intro env rpc query llmText p hq hinv hparse hpk hna hnone
    have hval : isPotentiallySolanaAddress p.publicKey = false := by
      rw [hpk]; exact hv
    simp [handleBalanceQuery, hq, hinv, hparse, hna, hpk, hnone, hval,
      invalidAddressResp]
    intro hcontra
    rw [hv] at hcontra
    simp at hcontra

/-- C1 (amended) witness: the pattern-failing string `z` through all three
flows. -/
theorem c1_validator_guard_amended_witness :
    (∃ e, balanceRoute rpcFive "z" =
        (⟨500, .errorBody "Failed to fetch balance" e⟩, [.parseAddress])) ∧
    (∃ e, airdropRoute rpcAllOk "z" 1 =
        (⟨500, .errorBody "Airdrop failed" e⟩, [.parseAddress])) ∧
    handleBalanceQuery (llmStub ⟨"get_balance", "z", "false"⟩) rpcFive
        "check the balance of wallet z" =
      (invalidAddressResp, [.llmInvoke, .fixParse, .validate]) := by
  have h := c1_validator_guard_amended "z" (by decide)
  exact ⟨h.1 rpcFive, h.2.1 rpcAllOk 1 (by decide) (by norm_num),
    h.2.2 (llmStub ⟨"get_balance", "z", "false"⟩) rpcFive
      "check the balance of wallet z" "stub llm output"
      ⟨"get_balance", "z", "false"⟩ (by decide) rfl rfl rfl (by decide)
      (by decide)⟩

end SolanaLlm
